import Mathlib

/-!
Shallow embedding of `src/document_processor.py` (class `DocumentProcessor`).

Text is modelled as `List Char` (Python strings are indexed and sliced by
character); Python ints that can move through comparisons with possibly
negative values are modelled as `Int`; external collaborators (the format
parsers and the chroma client) are modelled as explicit environment values
describing the outcome of each external call.
-/

set_option maxHeartbeats 1000000
set_option maxRecDepth 8192
set_option linter.unusedVariables false

namespace EchoVision

/-- Python `str.lower()`, modelled per character. -/
def lowerL (s : List Char) : List Char := s.map Char.toLower

/-- Python `str.strip()`: remove leading and trailing whitespace. -/
def strip (s : List Char) : List Char :=
  ((s.dropWhile Char.isWhitespace).reverse.dropWhile Char.isWhitespace).reverse

/-- Python `str.split()` with no argument: split on whitespace runs, dropping
empty pieces. -/
def splitWs (s : List Char) : List (List Char) :=
  (s.splitOnP Char.isWhitespace).filter (fun w => !w.isEmpty)

/-- Decimal rendering of a natural number, as Python `str(n)` inside f-strings. -/
def natStr (n : Nat) : List Char := (Nat.repr n).data

/-- Python `text.find(sub)`: position of the first occurrence, as an `Option`
(`none` stands for the -1 return). -/
def pyFind : List Char → List Char → Option Nat
  | [], needle => if needle.isPrefixOf ([] : List Char) then some 0 else none
  | c :: t, needle =>
    if needle.isPrefixOf (c :: t) then some 0
    else (pyFind t needle).map (fun i => i + 1)

/-- `os.path.splitext(path)[1].lower()`: the lowercased extension (including
the dot) of the last path component; leading dots of the component do not
start an extension. -/
def extOf (path : String) : List Char :=
  let base := (path.data.reverse.takeWhile (fun c => c ≠ '/')).reverse
  let core := base.dropWhile (fun c => c = '.')
  if core.contains '.' then
    lowerL ('.' :: (core.reverse.takeWhile (fun c => c ≠ '.')).reverse)
  else []

/-- `os.path.basename(path)`. -/
def basenameOf (path : String) : List Char :=
  (path.data.reverse.takeWhile (fun c => c ≠ '/')).reverse

/-- One normalized unit ("page"/"chapter"): an element of the `self.pages`
list, `{"index": int, "text": str, "label": str}`. -/
structure Page where
  index : Nat
  text : List Char
  label : List Char
deriving DecidableEq

/-- Outcome of one `collection.query` call: an exception, or the `"documents"`
field of the result (one list of chunk texts per query text). -/
inductive QueryOutcome where
  | throws : QueryOutcome
  | ok (documents : List (List (List Char))) : QueryOutcome

/-- The external chroma collection as observable through this module: its
chunk count and its query behaviour. -/
structure Collection where
  count : Nat
  query : List Char → Int → QueryOutcome

/-- The mutable state of a `DocumentProcessor`. -/
structure DocState where
  pages : List Page
  current_page : Int
  file_path : Option String
  doc_type : Option (List Char)
  title : List Char
  collection : Option Collection

/-- The sliding-window chunking inlined in `_build_vector_index`:
`for i in range(0, len(words), chunk_size - overlap): words[i:i+chunk_size]`
with `chunk_size = 300` and `overlap = 50`.  `range(0, M, 250)` enumerates
`250*j` for `j < ceil(M/250) = (M + 249) / 250`. -/
def chunkWords (words : List α) : List (List α) :=
  (List.range ((words.length + 249) / 250)).map (fun j => (words.drop (250 * j)).take 300)

/-- The chunk strings submitted to the index: every page's words, chunked and
re-joined with single spaces.  (`if not words: continue` is subsumed: an empty
word list yields no chunks.) -/
def buildDocs (pages : List Page) : List (List Char) :=
  (pages.map (fun p => (chunkWords (splitWs p.text)).map (fun c => List.intercalate [' '] c))).flatten

/-- Behaviour of the external chroma client during one `_build_vector_index`
call.  (`delete_collection` is wrapped in try/pass there, so its outcome does
not matter; chunk ids and metadata do not affect any modelled observable.) -/
structure IndexEnv where
  createThrows : Bool
  addThrows : Bool
  queryFn : List Char → Int → QueryOutcome

/-- `_build_vector_index`: recreate the collection, chunk all pages, and add
the chunks if there are any; any exception is caught and leaves
`self.collection = None`.  The count of the resulting collection is the number
of chunks added. -/
def build_vector_index (pages : List Page) (env : IndexEnv) : Option Collection :=
  if env.createThrows then none
  else
    let docs := buildDocs pages
    if docs.isEmpty then some { count := 0, query := env.queryFn }
    else if env.addThrows then none
    else some { count := docs.length, query := env.queryFn }

/-- Result of iterating a format parser: the items it yields, or — when an
exception is raised mid-iteration — the items yielded before the exception. -/
inductive ExtractResult (α : Type) where
  | ok (items : List α) : ExtractResult α
  | err (partialItems : List α) : ExtractResult α

def ExtractResult.isErr : ExtractResult α → Bool
  | .ok _ => false
  | .err _ => true

/-- The body of the page loop in `_load_pdf`: skip pages whose stripped text
is empty, otherwise make a unit with `index` = the 0-based original page
number and label `"Page {i+1}"`. -/
def pdfItem (pr : Nat × List Char) : Option Page :=
  let t := strip pr.2
  if t.isEmpty then none
  else some { index := pr.1, text := t, label := "Page ".data ++ natStr (pr.1 + 1) }

/-- `_load_pdf` unit construction. -/
def loadPdfPages (raws : List (List Char)) : List Page :=
  raws.enum.filterMap pdfItem

/-- A docx paragraph as consumed by `_load_docx`: its style name and text. -/
structure Paragraph where
  styleName : List Char
  text : List Char

/-- Accumulator of the paragraph loop in `_load_docx`. -/
structure DocxAcc where
  pages : List Page
  chapterIdx : Nat
  chapterLabel : List Char
  currentChunk : List (List Char)

/-- One iteration of the paragraph loop in `_load_docx`. -/
def docxStep (acc : DocxAcc) (para : Paragraph) : DocxAcc :=
  if "Heading".data.isPrefixOf para.styleName then
    let acc1 :=
      if acc.currentChunk.isEmpty then acc
      else { acc with
        pages := acc.pages ++ [{ index := acc.chapterIdx,
                                 text := List.intercalate ['\n'] acc.currentChunk,
                                 label := acc.chapterLabel }],
        chapterIdx := acc.chapterIdx + 1 }
    { acc1 with
      chapterLabel :=
        if (strip para.text).isEmpty then "Section ".data ++ natStr (acc1.chapterIdx + 1)
        else strip para.text,
      currentChunk := [] }
  else if (strip para.text).isEmpty then acc
  else { acc with currentChunk := acc.currentChunk ++ [strip para.text] }

def docxInit : DocxAcc :=
  { pages := [], chapterIdx := 0, chapterLabel := "Section 1".data, currentChunk := [] }

/-- `_load_docx` unit construction: split on heading paragraphs; if that
produces no unit, fall back to 500-word windows over all paragraph text. -/
def loadDocxPages (paras : List Paragraph) : List Page :=
  let acc := paras.foldl docxStep docxInit
  let pages :=
    if acc.currentChunk.isEmpty then acc.pages
    else acc.pages ++ [{ index := acc.chapterIdx,
                         text := List.intercalate ['\n'] acc.currentChunk,
                         label := acc.chapterLabel }]
  if pages.isEmpty then
    let allText := List.intercalate ['\n'] ((paras.filter (fun p => !(strip p.text).isEmpty)).map (fun p => p.text))
    let words := splitWs allText
    (List.range ((words.length + 499) / 500)).map (fun j =>
      { index := j, text := List.intercalate [' '] ((words.drop (500 * j)).take 500),
        label := "Section ".data ++ natStr (j + 1) })
  else pages

/-- An epub item as consumed by `_load_epub`: whether it is a document item,
the text extracted from its html, and the text of its first h1/h2/h3 tag. -/
structure EpubItem where
  isDocument : Bool
  rawText : List Char
  heading : Option (List Char)

/-- One iteration of the item loop in `_load_epub`. -/
def epubStep (acc : List Page × Nat) (item : EpubItem) : List Page × Nat :=
  if item.isDocument then
    let text := strip item.rawText
    if 100 < text.length then
      let label :=
        match item.heading with
        | some h => strip h
        | none => "Chapter ".data ++ natStr (acc.2 + 1)
      (acc.1 ++ [{ index := acc.2, text := text, label := label }], acc.2 + 1)
    else acc
  else acc

/-- `_load_epub` unit construction. -/
def loadEpubPages (items : List EpubItem) : List Page :=
  (items.foldl epubStep ([], 0)).1

/-- `_load_txt` unit construction: 600-word windows, no overlap. -/
def loadTxtPages (content : List Char) : List Page :=
  let words := splitWs content
  (List.range ((words.length + 599) / 600)).map (fun j =>
    { index := j, text := List.intercalate [' '] ((words.drop (600 * j)).take 600),
      label := "Section ".data ++ natStr (j + 1) })

/-- External behaviour during one `load` call: the outcome of each format
parser and of the index service. -/
structure LoadEnv where
  pdf : ExtractResult (List Char)
  docx : ExtractResult Paragraph
  epub : ExtractResult EpubItem
  txt : Option (List Char)
  indexEnv : IndexEnv

/-- The state reset performed at the top of `load`. -/
def initReset (st : DocState) (filepath : String) : DocState :=
  { st with pages := [], current_page := 0, file_path := some filepath,
            title := basenameOf filepath }

/-- The tail of `load`: if any unit was produced, build the index and succeed. -/
def finishLoad (st : DocState) (env : LoadEnv) : Bool × DocState :=
  if st.pages.isEmpty then (false, st)
  else (true, { st with collection := build_vector_index st.pages env.indexEnv })

/-- `DocumentProcessor.load`.  On a parser exception the pages appended before
the exception stay in place and `doc_type` keeps its previous value (it is
assigned only after the loader returns). -/
def load (st : DocState) (filepath : String) (env : LoadEnv) : Bool × DocState :=
  let ext := extOf filepath
  let st1 := initReset st filepath
  if ext = ".pdf".data then
    match env.pdf with
    | .ok raws => finishLoad { st1 with pages := loadPdfPages raws, doc_type := some ("PDF".data) } env
    | .err raws => (false, { st1 with pages := loadPdfPages raws })
  else if ext = ".docx".data ∨ ext = ".doc".data then
    match env.docx with
    | .ok paras => finishLoad { st1 with pages := loadDocxPages paras, doc_type := some ("DOCX".data) } env
    | .err paras => (false, { st1 with pages := (paras.foldl docxStep docxInit).pages })
  else if ext = ".epub".data then
    match env.epub with
    | .ok items => finishLoad { st1 with pages := loadEpubPages items, doc_type := some ("EPUB".data) } env
    | .err items => (false, { st1 with pages := loadEpubPages items })
  else if ext = ".txt".data then
    match env.txt with
    | some content => finishLoad { st1 with pages := loadTxtPages content, doc_type := some ("TXT".data) } env
    | none => (false, st1)
  else (false, st1)

/-- External behaviour during one `unload` call. -/
structure UnloadEnv where
  fileExists : Bool
  removeThrows : Bool
  deleteCollectionThrows : Bool

/-- `DocumentProcessor.unload`.  Deleting the backing file never touches the
in-memory state (its failure is swallowed); when `delete_collection` throws,
the `self.collection = None` assignment inside the try block is skipped, so
the handle keeps its value.  The `deleteFile` flag and the file-system fields
of the environment therefore do not influence the resulting state. -/
def unload (st : DocState) (deleteFile : Bool) (env : UnloadEnv) : Bool × DocState :=
  let stc :=
    match st.collection with
    | some _ => if env.deleteCollectionThrows then st else { st with collection := none }
    | none => st
  (true, { stc with pages := [], current_page := 0, file_path := none, doc_type := none,
                    title := "Untitled Document".data })

/-- `DocumentProcessor.page_count`. -/
def page_count (st : DocState) : Nat := st.pages.length

/-- `DocumentProcessor.get_page`. -/
def get_page (st : DocState) (index : Int) : List Char :=
  if 0 ≤ index ∧ index < (st.pages.length : Int) then
    ((st.pages[index.toNat]?).map Page.text).getD []
  else []

/-- `DocumentProcessor.get_current_text`. -/
def get_current_text (st : DocState) : List Char := get_page st st.current_page

/-- `DocumentProcessor.get_current_label`. -/
def get_current_label (st : DocState) : List Char :=
  if 0 ≤ st.current_page ∧ st.current_page < (st.pages.length : Int) then
    ((st.pages[st.current_page.toNat]?).map Page.label).getD []
  else "Unknown".data

/-- `DocumentProcessor.next_page`. -/
def next_page (st : DocState) : Bool × DocState :=
  if st.current_page < (st.pages.length : Int) - 1 then
    (true, { st with current_page := st.current_page + 1 })
  else (false, st)

/-- `DocumentProcessor.prev_page`. -/
def prev_page (st : DocState) : Bool × DocState :=
  if 0 < st.current_page then
    (true, { st with current_page := st.current_page - 1 })
  else (false, st)

/-- `DocumentProcessor.go_to_page`. -/
def go_to_page (st : DocState) (index : Int) : Bool × DocState :=
  if 0 ≤ index ∧ index < (st.pages.length : Int) then
    (true, { st with current_page := index })
  else (false, st)

/-- `DocumentProcessor.get_full_text` (the Python default for `max_chars` is
50000; the retrieval fallback always passes 10000). -/
def get_full_text (st : DocState) (maxChars : Nat) : List Char :=
  (List.intercalate ['\n', '\n'] (st.pages.map Page.text)).take maxChars

/-- `DocumentProcessor.get_chapter_text` (1-indexed). -/
def get_chapter_text (st : DocState) (chapter_num : Int) : List Char :=
  let idx := chapter_num - 1
  if 0 ≤ idx ∧ idx < (st.pages.length : Int) then
    ((st.pages[idx.toNat]?).map Page.text).getD []
  else []

/-- One element of the list returned by `DocumentProcessor.search`. -/
structure SearchHit where
  page : Nat
  label : List Char
  snippet : List Char
deriving DecidableEq

/-- The page loop of `DocumentProcessor.search`, with the query already
lowercased. -/
def searchPages (ql : List Char) : List Page → List SearchHit
  | [] => []
  | p :: ps =>
    match pyFind (lowerL p.text) ql with
    | some pos =>
      { page := p.index, label := p.label,
        snippet := (p.text.drop (pos - 60)).take ((pos + 120) - (pos - 60)) } :: searchPages ql ps
    | none => searchPages ql ps

/-- `DocumentProcessor.search`. -/
def search (st : DocState) (query : List Char) : List SearchHit :=
  searchPages (lowerL query) st.pages

/-- `DocumentProcessor.get_relevant_context`. -/
def get_relevant_context (st : DocState) (query : List Char) (n_results : Int) : List Char :=
  match st.collection with
  | none => get_full_text st 10000
  | some col =>
    if col.count = 0 then get_full_text st 10000
    else
      let k : Int := min n_results (col.count : Int)
      if k = 0 then []
      else
        match col.query query k with
        | .throws => get_full_text st 10000
        | .ok documents =>
          match documents with
          | [] => get_full_text st 10000
          | d0 :: _ =>
            if d0.isEmpty then get_full_text st 10000
            else List.intercalate ['\n', '.', '.', '.', '\n'] d0

/-- Whether the dispatched format parser raised during `load filepath env`
(`false` also when the extension is unsupported, where no parser runs). -/
def extractionThrew (filepath : String) (env : LoadEnv) : Bool :=
  let ext := extOf filepath
  if ext = ".pdf".data then env.pdf.isErr
  else if ext = ".docx".data ∨ ext = ".doc".data then env.docx.isErr
  else if ext = ".epub".data then env.epub.isErr
  else if ext = ".txt".data then env.txt.isNone
  else false

/-- The unit sequence the dispatched adapter produces on success (`none` when
the extension is unsupported or the parser raises). -/
def adapterPages (filepath : String) (env : LoadEnv) : Option (List Page) :=
  let ext := extOf filepath
  if ext = ".pdf".data then
    match env.pdf with
    | .ok raws => some (loadPdfPages raws)
    | .err _ => none
  else if ext = ".docx".data ∨ ext = ".doc".data then
    match env.docx with
    | .ok paras => some (loadDocxPages paras)
    | .err _ => none
  else if ext = ".epub".data then
    match env.epub with
    | .ok items => some (loadEpubPages items)
    | .err _ => none
  else if ext = ".txt".data then
    match env.txt with
    | some content => some (loadTxtPages content)
    | none => none
  else none

/-! Concrete fixtures used by witnesses and counterexamples. -/

/-- A one-unit page whose text is shorter than the snippet window. -/
def pageHello : Page :=
  { index := 0, text := "say hello world".data, label := "L".data }

/-- The unloaded initial state of a `DocumentProcessor`. -/
def stEmpty : DocState :=
  { pages := [], current_page := 0, file_path := none, doc_type := none,
    title := "Untitled Document".data, collection := none }

/-- A loaded one-unit state without an index. -/
def stOne : DocState := { stEmpty with pages := [pageHello] }

/-- A collection handle whose every query throws. -/
def colThrow : Collection := { count := 3, query := fun _ _ => .throws }

/-- A loaded state holding an index handle. -/
def stLoadedIdx : DocState :=
  { pages := [pageHello], current_page := 0, file_path := some ("f.txt"),
    doc_type := some ("TXT".data), title := "f.txt".data, collection := some colThrow }

/-- An unload environment whose `delete_collection` call throws. -/
def envThrowDel : UnloadEnv :=
  { fileExists := false, removeThrows := false, deleteCollectionThrows := true }

/-- An unload environment whose external calls all succeed. -/
def envOkDel : UnloadEnv :=
  { fileExists := false, removeThrows := false, deleteCollectionThrows := false }

/-- A load environment where every parser yields nothing and indexing works. -/
def envBasic : LoadEnv :=
  { pdf := .ok [], docx := .ok [], epub := .ok [], txt := none,
    indexEnv := { createThrows := false, addThrows := false, queryFn := fun _ _ => .throws } }

/-- A load environment with a two-page PDF whose first page has empty text. -/
def envPdfGap : LoadEnv :=
  { envBasic with pdf := .ok [[], "hi".data] }

/-- A load environment with a non-empty TXT file and a failing index build. -/
def envTxtIdxFail : LoadEnv :=
  { envBasic with
    txt := some ("hello world".data),
    indexEnv := { createThrows := true, addThrows := false, queryFn := fun _ _ => .throws } }

/-- A two-chunk collection answering every query with one document. -/
def colTwo : Collection := { count := 2, query := fun _ _ => .ok [["ab".data]] }

/-- A loaded state holding `colTwo`. -/
def stTwo : DocState := { stEmpty with pages := [pageHello], collection := some colTwo }

/-- C10: for every document state and every integer `n`, `get_chapter_text n`
returns exactly `get_page (n − 1)`: the text of the unit at position `n − 1`
when `0 ≤ n − 1 < page_count()`, and the empty string otherwise (including
`n ≤ 0` and `n > page_count()`). -/
theorem claim_C10 (st : DocState) (n : Int) :
    get_chapter_text st n = get_page st (n - 1)
  ∧ (1 ≤ n ∧ n ≤ (st.pages.length : Int) →
      get_chapter_text st n = ((st.pages[(n - 1).toNat]?).map Page.text).getD [])
  ∧ (n ≤ 0 ∨ (st.pages.length : Int) < n → get_chapter_text st n = []) := by
  refine ⟨rfl, fun h => ?_, fun h => ?_⟩
  · simp only [get_chapter_text]
    rw [if_pos (by omega)]
  · simp only [get_chapter_text]
    rw [if_neg (by omega)]

/-- C10 witness: at `n = 0` the out-of-range hypothesis holds and the result
is the empty string. -/
theorem claim_C10_witness :
    ((0 : Int) ≤ 0 ∨ ((stOne.pages.length : Int) < 0)) ∧ get_chapter_text stOne 0 = [] :=
  ⟨Or.inl (by decide), (claim_C10 stOne 0).2.2 (Or.inl (by decide))⟩

/-- C7: on a loaded document (`0 ≤ cursor < N`), `next_page` succeeds and
increments exactly below `N − 1`, `prev_page` succeeds and decrements exactly
above 0, `go_to_page i` succeeds exactly for `0 ≤ i < N`; every failing call
returns false and leaves the state unchanged, and all three keep the cursor in
`[0, N)`. -/
theorem claim_C7 (st : DocState) (h0 : 0 ≤ st.current_page)
    (hN : st.current_page < (st.pages.length : Int)) :
    (((next_page st).1 = true ∧ (next_page st).2.current_page = st.current_page + 1) ↔
       st.current_page < (st.pages.length : Int) - 1)
  ∧ ((next_page st).1 = false → (next_page st).2 = st)
  ∧ (((prev_page st).1 = true ∧ (prev_page st).2.current_page = st.current_page - 1) ↔
       0 < st.current_page)
  ∧ ((prev_page st).1 = false → (prev_page st).2 = st)
  ∧ (∀ i : Int, ((go_to_page st i).1 = true ∧ (go_to_page st i).2.current_page = i) ↔
       (0 ≤ i ∧ i < (st.pages.length : Int)))
  ∧ (∀ i : Int, (go_to_page st i).1 = false → (go_to_page st i).2 = st)
  ∧ (0 ≤ (next_page st).2.current_page ∧ (next_page st).2.current_page < (st.pages.length : Int))
  ∧ (0 ≤ (prev_page st).2.current_page ∧ (prev_page st).2.current_page < (st.pages.length : Int))
  ∧ (∀ i : Int, 0 ≤ (go_to_page st i).2.current_page ∧
       (go_to_page st i).2.current_page < (st.pages.length : Int)) := by
  refine ⟨?_, ?_, ?_, ?_, fun i => ?_, fun i => ?_, ?_, ?_, fun i => ?_⟩ <;>
    simp only [next_page, prev_page, go_to_page] <;> split <;> simp_all <;> omega

/-- C7 witness: on a loaded one-unit document with cursor 0, `next_page`
fails and leaves the state unchanged. -/
theorem claim_C7_witness :
    (0 : Int) ≤ stOne.current_page ∧ stOne.current_page < (stOne.pages.length : Int) ∧
    ((next_page stOne).1 = false → (next_page stOne).2 = stOne) :=
  ⟨by decide, by decide, (claim_C7 stOne (by decide) (by decide)).2.1⟩

/-- C8 counterexample: from a loaded state holding an index handle, with a
`delete_collection` call that throws, `unload` twice returns true both times,
but the state after the second call still holds the handle — it is not the
unloaded state with index handle none that the claim asserts. -/
theorem claim_C8_counterexample :
    (unload stLoadedIdx false envThrowDel).1 = true
  ∧ (unload (unload stLoadedIdx false envThrowDel).2 false envThrowDel).1 = true
  ∧ ((unload (unload stLoadedIdx false envThrowDel).2 false envThrowDel).2.collection).isSome
      = true := by
  refine ⟨rfl, rfl, rfl⟩

/-- C8 amended: calling `unload()` twice in a row (the teardown collaborator
behaving the same both times) returns true both times and leaves the state
after the second call identical to the state after the first: units empty,
cursor 0, path none; the index handle is none when the teardown call
succeeds, but keeps its previous value when `delete_collection` throws. -/
theorem claim_C8 (st : DocState) (deleteFile : Bool) (env : UnloadEnv) :
    (unload st deleteFile env).1 = true
  ∧ (unload (unload st deleteFile env).2 deleteFile env).1 = true
  ∧ (unload (unload st deleteFile env).2 deleteFile env).2 = (unload st deleteFile env).2
  ∧ (unload st deleteFile env).2.pages = []
  ∧ (unload st deleteFile env).2.current_page = 0
  ∧ (unload st deleteFile env).2.file_path = none
  ∧ (env.deleteCollectionThrows = false → (unload st deleteFile env).2.collection = none)
  ∧ (env.deleteCollectionThrows = true → (unload st deleteFile env).2.collection = st.collection) := by
  obtain ⟨pages, cur, fp, dt, ti, coll⟩ := st
  obtain ⟨fe, rt, dct⟩ := env
  cases dct <;> cases coll <;> simp [unload]

/-- C8 witness: with a succeeding teardown, after one `unload` the handle is
none. -/
theorem claim_C8_witness :
    envOkDel.deleteCollectionThrows = false ∧
    (unload stLoadedIdx false envOkDel).2.collection = none :=
  ⟨rfl, (claim_C8 stLoadedIdx false envOkDel).2.2.2.2.2.2.1 rfl⟩

/-- Projection facts about `load` shared by several claims: the cursor is
always reset to 0; a failing load leaves the index handle untouched; a
failing load without a parser exception leaves no units; a successful
adapter run with at least one unit makes `load` succeed, store exactly those
units, and set the handle to the result of the index build. -/
lemma load_cases (st : DocState) (filepath : String) (env : LoadEnv) :
    (load st filepath env).2.current_page = 0
  ∧ ((load st filepath env).1 = false → (load st filepath env).2.collection = st.collection)
  ∧ ((load st filepath env).1 = false → extractionThrew filepath env = false →
      (load st filepath env).2.pages = [])
  ∧ (∀ ps, adapterPages filepath env = some ps → ¬ ps = [] →
      (load st filepath env).1 = true ∧ (load st filepath env).2.pages = ps ∧
      (load st filepath env).2.collection = build_vector_index ps env.indexEnv) := by
  obtain ⟨pdf, docx, epub, txt, ienv⟩ := env
  simp only [load, adapterPages, extractionThrew, finishLoad, initReset, ExtractResult.isErr]
  by_cases h1 : extOf filepath = ".pdf".data <;>
    by_cases h2 : extOf filepath = ".docx".data ∨ extOf filepath = ".doc".data <;>
    by_cases h3 : extOf filepath = ".epub".data <;>
    by_cases h4 : extOf filepath = ".txt".data <;>
    cases pdf <;> cases docx <;> cases epub <;> cases txt <;>
    simp_all [List.isEmpty_iff] <;>
    (try (split <;> simp_all))

/-- An index build fails (leaving the handle `none`) when creating the
collection throws, or when there are chunks to add and adding them throws. -/
lemma build_vector_index_none (pages : List Page) (env : IndexEnv)
    (h : env.createThrows = true ∨ (¬ buildDocs pages = [] ∧ env.addThrows = true)) :
    build_vector_index pages env = none := by
  unfold build_vector_index
  rcases h with h | ⟨hd, ha⟩
  · simp [h]
  · cases hc : env.createThrows <;> simp [hc, ha, List.isEmpty_iff, hd]

/-- C2 counterexample: from a state holding an index handle, `load` of an
unsupported extension returns false, yet the previous handle is still there
— the resulting state is not the unloaded state (index handle none) that the
claim asserts. -/
theorem claim_C2_counterexample :
    (load stLoadedIdx ("doc.xyz") envBasic).1 = false
  ∧ ((load stLoadedIdx ("doc.xyz") envBasic).2.collection).isSome = true := by
  refine ⟨rfl, rfl⟩

/-- C2 amended: after every `load` call that returns false the cursor is 0
and the index handle keeps the value it had before the call (it is not reset
to none); the unit list is empty when the failure is an unsupported extension
or zero extracted units, while a parser exception may leave the units
appended before the exception in place. -/
theorem claim_C2 (st : DocState) (filepath : String) (env : LoadEnv)
    (h : (load st filepath env).1 = false) :
    (load st filepath env).2.current_page = 0
  ∧ (load st filepath env).2.collection = st.collection
  ∧ (extractionThrew filepath env = false → (load st filepath env).2.pages = []) :=
  ⟨(load_cases st filepath env).1,
   (load_cases st filepath env).2.1 h,
   fun ht => (load_cases st filepath env).2.2.1 h ht⟩

/-- C2 witness: loading an unsupported extension from the unloaded state
fails and leaves cursor 0, the (absent) handle unchanged, and no units. -/
theorem claim_C2_witness :
    (load stEmpty ("f.xyz") envBasic).1 = false
  ∧ (load stEmpty ("f.xyz") envBasic).2.current_page = 0
  ∧ (load stEmpty ("f.xyz") envBasic).2.collection = stEmpty.collection
  ∧ (load stEmpty ("f.xyz") envBasic).2.pages = [] :=
  ⟨rfl, (claim_C2 stEmpty ("f.xyz") envBasic rfl).1,
   (claim_C2 stEmpty ("f.xyz") envBasic rfl).2.1,
   (claim_C2 stEmpty ("f.xyz") envBasic rfl).2.2 rfl⟩

/-- C4: whenever the index handle is none, or the chunk count is 0, or the
issued index query throws, or the issued index query returns no documents,
`get_relevant_context` returns exactly `get_full_text` at the 10,000-character
cap; no index failure propagates. -/
theorem claim_C4 (st : DocState) (q : List Char) (n : Int) :
    (st.collection = none → get_relevant_context st q n = get_full_text st 10000)
  ∧ (∀ col, st.collection = some col →
      (col.count = 0 → get_relevant_context st q n = get_full_text st 10000)
    ∧ (¬ col.count = 0 → ¬ min n (col.count : Int) = 0 →
        col.query q (min n (col.count : Int)) = .throws →
        get_relevant_context st q n = get_full_text st 10000)
    ∧ (∀ documents, ¬ col.count = 0 → ¬ min n (col.count : Int) = 0 →
        col.query q (min n (col.count : Int)) = .ok documents →
        (documents = [] ∨ documents.head? = some []) →
        get_relevant_context st q n = get_full_text st 10000)) := by
  refine ⟨fun hnone => ?_, fun col hcol => ⟨fun hcnt => ?_, fun hcnt hk hq => ?_,
    fun documents hcnt hk hq hdocs => ?_⟩⟩
  · simp [get_relevant_context, hnone]
  · simp [get_relevant_context, hcol, hcnt]
  · simp only [get_relevant_context, hcol]
    rw [if_neg hcnt, if_neg hk, hq]
  · simp only [get_relevant_context, hcol]
    rw [if_neg hcnt, if_neg hk, hq]
    rcases hdocs with h | h
    · subst h; rfl
    · cases documents with
      | nil => rfl
      | cons d0 rest =>
        simp only [List.head?_cons, Option.some.injEq] at h
        subst h
        simp

/-- C4 witness: with no index handle, retrieval falls back to the truncated
full text. -/
theorem claim_C4_witness :
    stOne.collection = none
  ∧ get_relevant_context stOne ("x".data) 4 = get_full_text stOne 10000 :=
  ⟨rfl, (claim_C4 stOne ("x".data) 4).1 rfl⟩

/-- C5: on a non-empty index the requested `k` is clamped to
`min(n_results, chunk_count)` before querying — requesting more than the
available chunks behaves exactly like requesting the whole count (so it never
errors) — and a clamped `k` of 0 yields the empty string. -/
theorem claim_C5 (st : DocState) (col : Collection) (q : List Char) (n : Int)
    (hcol : st.collection = some col) (h0 : ¬ col.count = 0) :
    (min n (col.count : Int) = 0 → get_relevant_context st q n = [])
  ∧ ((col.count : Int) ≤ n →
      get_relevant_context st q n = get_relevant_context st q (col.count : Int)) := by
  constructor
  · intro hk0
    simp only [get_relevant_context, hcol]
    rw [if_neg h0, if_pos hk0]
  · intro hn
    have hmin : min n (col.count : Int) = (col.count : Int) := min_eq_right hn
    have hmin2 : min ((col.count : Int)) (col.count : Int) = (col.count : Int) := min_self _
    simp only [get_relevant_context, hcol]
    rw [if_neg h0, if_neg h0, hmin, hmin2]

/-- C5 witness: on a two-chunk index, asking for five results equals asking
for two. -/
theorem claim_C5_witness :
    stTwo.collection = some colTwo ∧ ¬ colTwo.count = 0
  ∧ get_relevant_context stTwo ("x".data) 5 = get_relevant_context stTwo ("x".data) 2 :=
  ⟨rfl, by decide, (claim_C5 stTwo colTwo ("x".data) 5 rfl (by decide)).2 (by decide)⟩

/-- C6: whenever the dispatched adapter produces at least one unit, `load`
returns true and stores those units, and a failure while building the
semantic index only results in `collection = none` — it does not fail the
load. -/
theorem claim_C6 (st : DocState) (filepath : String) (env : LoadEnv) (ps : List Page)
    (hps : adapterPages filepath env = some ps) (hne : ¬ ps = []) :
    (load st filepath env).1 = true
  ∧ (load st filepath env).2.pages = ps
  ∧ ((env.indexEnv.createThrows = true ∨ (¬ buildDocs ps = [] ∧ env.indexEnv.addThrows = true)) →
      (load st filepath env).2.collection = none) := by
  obtain ⟨h1, h2, h3⟩ := (load_cases st filepath env).2.2.2 ps hps hne
  exact ⟨h1, h2, fun hfail => h3.trans (build_vector_index_none ps env.indexEnv hfail)⟩

/-- C6 witness: a loadable TXT file with a throwing index creation still
loads, with no index handle. -/
theorem claim_C6_witness :
    adapterPages ("f.txt") envTxtIdxFail = some (loadTxtPages ("hello world".data))
  ∧ ¬ loadTxtPages ("hello world".data) = []
  ∧ (load stEmpty ("f.txt") envTxtIdxFail).1 = true
  ∧ (load stEmpty ("f.txt") envTxtIdxFail).2.collection = none :=
  ⟨rfl, by decide,
   (claim_C6 stEmpty ("f.txt") envTxtIdxFail (loadTxtPages ("hello world".data)) rfl (by decide)).1,
   (claim_C6 stEmpty ("f.txt") envTxtIdxFail (loadTxtPages ("hello world".data)) rfl
     (by decide)).2.2 (Or.inl rfl)⟩

/-- Chunk `j` of the sliding-window chunker. -/
lemma chunkWords_getElem? (words : List α) (j : Nat) (hj : j < (words.length + 249) / 250) :
    (chunkWords words)[j]? = some ((words.drop (250 * j)).take 300) := by
  simp [chunkWords, List.getElem?_range hj]

/-- The chunker yields `ceil(M / 250)` chunks. -/
lemma chunkWords_length (words : List α) :
    (chunkWords words).length = (words.length + 249) / 250 := by
  simp [chunkWords]

/-- A 300-word unit. -/
def words300 : List (List Char) := List.replicate 300 ("w".data)

/-- C1 counterexample: for a unit of M = 300 words (M > O = 50) the claimed
count ceil((M − O)/(W − O)) = ceil(250/250) = 1, but the chunker
(`range(0, 300, 250)` = [0, 250]) produces 2 chunks. -/
theorem claim_C1_counterexample :
    (chunkWords words300).length = 2
  ∧ (300 - 50 + (250 - 1)) / 250 = 1
  ∧ ¬ (chunkWords words300).length = (300 - 50 + (250 - 1)) / 250 := by
  have h : (chunkWords words300).length = 2 := by decide
  exact ⟨h, by norm_num, by rw [h]; norm_num⟩

/-- C1 amended: for every unit of M > 0 words, with the defaults W = 300 and
O = 50, the chunker produces exactly ceil(M / (W − O)) chunks (the claimed
ceil((M − O)/(W − O)) undercounts whenever M mod (W − O) lies in 1..O); chunk
`j` consists of the words at offsets 250·j .. 250·j+299 clipped to the unit,
so chunk `j`'s first word is the unit's word at offset j·(W − O), every word
at offset m lands in chunk m / 250 (no gap), and the words of a chunk beyond
its first W − O coincide with the first min(O, |next chunk|) words of the
next chunk — a full O-word overlap except possibly at the final chunk. -/
theorem claim_C1 {α : Type} (words : List α) (hw : ¬ words = []) :
    (chunkWords words).length = (words.length + 249) / 250
  ∧ (∀ j, j < (chunkWords words).length →
      (chunkWords words)[j]? = some ((words.drop (250 * j)).take 300))
  ∧ (∀ j, j < (chunkWords words).length →
      250 * j < words.length ∧ ((words.drop (250 * j)).take 300)[0]? = words[250 * j]?)
  ∧ (∀ m, m < words.length →
      ((chunkWords words)[m / 250]?).bind (fun ck => ck[m - 250 * (m / 250)]?) = words[m]?)
  ∧ (∀ j cj cj1, (chunkWords words)[j]? = some cj → (chunkWords words)[j + 1]? = some cj1 →
      cj.drop 250 = cj1.take 50) := by
  have hlen := chunkWords_length (α := α) words
  refine ⟨hlen, ?_, ?_, ?_, ?_⟩
  · intro j hj
    exact chunkWords_getElem? words j (hlen ▸ hj)
  · intro j hj
    rw [hlen] at hj
    have hjm : 250 * j < words.length := by omega
    refine ⟨hjm, ?_⟩
    rw [List.getElem?_take_of_lt (by norm_num), List.getElem?_drop]
    norm_num
  · intro m hm
    have hj : m / 250 < (words.length + 249) / 250 := by omega
    rw [chunkWords_getElem? words _ hj, Option.some_bind]
    rw [List.getElem?_take_of_lt (by omega), List.getElem?_drop]
    congr 1
    omega
  · intro j cj cj1 h1 h2
    have hj1 : j + 1 < (chunkWords words).length := by
      by_contra hcon
      rw [List.getElem?_eq_none (by omega)] at h2
      exact Option.noConfusion h2
    have hj : j < (chunkWords words).length := by omega
    rw [chunkWords_getElem? words j (hlen ▸ hj)] at h1
    rw [chunkWords_getElem? words (j + 1) (hlen ▸ hj1)] at h2
    simp only [Option.some.injEq] at h1 h2
    subst h1
    subst h2
    have h250 : 250 * (j + 1) = 250 * j + 250 := by ring
    rw [List.drop_take, List.drop_drop, List.take_take, h250]
    norm_num

/-- C1 witness: a one-word unit yields ceil(1/250) = 1 chunk. -/
theorem claim_C1_witness :
    ¬ (["a".data] : List (List Char)) = []
  ∧ (chunkWords (["a".data] : List (List Char))).length
      = (((["a".data] : List (List Char)).length + 249) / 250) :=
  ⟨by decide, (claim_C1 (["a".data] : List (List Char)) (by decide)).1⟩

/-- Boolean prefix test agrees with the prefix relation on `List Char`. -/
lemma isPrefixOf_eq_true_iff (l₁ l₂ : List Char) : l₁.isPrefixOf l₂ = true ↔ l₁ <+: l₂ :=
  List.isPrefixOf_iff_prefix

/-- `pyFind` returning `some pos` means the needle occurs at `pos` and at no
earlier position. -/
lemma pyFind_some (hay needle : List Char) :
    ∀ pos, pyFind hay needle = some pos →
      needle <+: hay.drop pos ∧ ∀ j, j < pos → ¬ needle <+: hay.drop j := by
  induction hay with
  | nil =>
    intro pos h
    simp only [pyFind] at h
    split at h
    · rename_i hpre
      obtain rfl : 0 = pos := Option.some.inj h
      exact ⟨(isPrefixOf_eq_true_iff _ _).mp hpre, fun j hj => absurd hj (by omega)⟩
    · exact Option.noConfusion h
  | cons c t ih =>
    intro pos h
    simp only [pyFind] at h
    split at h
    · rename_i hpre
      obtain rfl : 0 = pos := Option.some.inj h
      exact ⟨(isPrefixOf_eq_true_iff _ _).mp hpre, fun j hj => absurd hj (by omega)⟩
    · rename_i hpre
      cases hft : pyFind t needle with
      | none => rw [hft] at h; exact Option.noConfusion h
      | some p1 =>
        rw [hft] at h
        simp only [Option.map_some'] at h
        obtain rfl : p1 + 1 = pos := Option.some.inj h
        obtain ⟨h1, h2⟩ := ih p1 hft
        refine ⟨by simpa using h1, fun j hj => ?_⟩
        cases j with
        | zero =>
          intro hc
          exact hpre ((isPrefixOf_eq_true_iff _ _).mpr (by simpa using hc))
        | succ j1 =>
          intro hc
          exact h2 j1 (by omega) (by simpa using hc)

/-- `pyFind` returning `none` means the needle occurs nowhere. -/
lemma pyFind_none (hay needle : List Char) :
    pyFind hay needle = none → ∀ j, ¬ needle <+: hay.drop j := by
  induction hay with
  | nil =>
    intro h j hc
    simp only [pyFind] at h
    split at h
    · exact Option.noConfusion h
    · rename_i hpre
      exact hpre ((isPrefixOf_eq_true_iff _ _).mpr (by simpa using hc))
  | cons c t ih =>
    intro h j
    simp only [pyFind] at h
    split at h
    · exact Option.noConfusion h
    · rename_i hpre
      have hn : pyFind t needle = none := by
        cases hft : pyFind t needle
        · rfl
        · rw [hft] at h; exact Option.noConfusion h
      cases j with
      | zero =>
        intro hc
        exact hpre ((isPrefixOf_eq_true_iff _ _).mpr (by simpa using hc))
      | succ j1 =>
        intro hc
        exact ih hn j1 (by simpa using hc)

/-- `pyFind` succeeds exactly on substring containment. -/
lemma pyFind_isSome_iff (hay needle : List Char) :
    (pyFind hay needle).isSome = true ↔ needle <:+: hay := by
  constructor
  · intro h
    obtain ⟨pos, hp⟩ := Option.isSome_iff_exists.mp h
    exact List.infix_iff_prefix_suffix.mpr
      ⟨hay.drop pos, (pyFind_some hay needle pos hp).1, List.drop_suffix _ _⟩
  · intro h
    obtain ⟨t, hpre, hsuf⟩ := List.infix_iff_prefix_suffix.mp h
    obtain ⟨s, rfl⟩ := hsuf
    cases hf : pyFind (s ++ t) needle with
    | none =>
      exfalso
      exact pyFind_none (s ++ t) needle hf s.length (by
        rw [List.drop_left]
        exact hpre)
    | some p => simp

/-- The search loop emits, per page, the filterMap of the per-page match. -/
lemma searchPages_eq_filterMap (ql : List Char) (pages : List Page) :
    searchPages ql pages = pages.filterMap (fun p =>
      (pyFind (lowerL p.text) ql).map (fun pos =>
        { page := p.index, label := p.label,
          snippet := (p.text.drop (pos - 60)).take ((pos + 120) - (pos - 60)) })) := by
  induction pages with
  | nil => rfl
  | cons p ps ih =>
    simp only [searchPages, List.filterMap_cons]
    cases hf : pyFind (lowerL p.text) ql <;> simp [hf, ih]

/-- The pages emitting a hit are exactly those whose lowered text contains
the lowered query, in page order. -/
lemma searchPages_pairs (ql : List Char) (pages : List Page) :
    (searchPages ql pages).map (fun h => (h.page, h.label)) =
      (pages.filter (fun p => decide (ql <:+: lowerL p.text))).map (fun p => (p.index, p.label)) := by
  induction pages with
  | nil => rfl
  | cons p ps ih =>
    simp only [searchPages, List.filter_cons]
    cases hf : pyFind (lowerL p.text) ql with
    | some pos =>
      have hinf : ql <:+: lowerL p.text := (pyFind_isSome_iff _ _).mp (by simp [hf])
      simp [hinf, ih]
    | none =>
      have hninf : ¬ ql <:+: lowerL p.text := by
        rw [← pyFind_isSome_iff]
        simp [hf]
      simp [hninf, ih]

/-- C9: `search` emits, in unit order, exactly one match per unit whose
lowercased text contains the lowercased query; the snippet is the unit's
original text from character max(0, pos − 60) to pos + 120 where `pos` is the
first occurrence in the lowercased text; a unit shorter than that window
yields the unclipped text, as in the `"say hello world"` scenario. -/
theorem claim_C9 :
    (∀ (pages : List Page) (q : List Char),
      (searchPages (lowerL q) pages).map (fun h => (h.page, h.label)) =
        (pages.filter (fun p => decide (lowerL q <:+: lowerL p.text))).map
          (fun p => (p.index, p.label)))
  ∧ (∀ (pages : List Page) (q : List Char),
      searchPages (lowerL q) pages = pages.filterMap (fun p =>
        (pyFind (lowerL p.text) (lowerL q)).map (fun pos =>
          { page := p.index, label := p.label,
            snippet := (p.text.drop (pos - 60)).take ((pos + 120) - (pos - 60)) })))
  ∧ (∀ (text ql : List Char) (pos : Nat), pyFind (lowerL text) ql = some pos →
      ql <+: (lowerL text).drop pos ∧ ∀ j, j < pos → ¬ ql <+: (lowerL text).drop j)
  ∧ (∀ (text : List Char) (pos : Nat), pos ≤ 60 → text.length ≤ pos + 120 →
      (text.drop (pos - 60)).take ((pos + 120) - (pos - 60)) = text)
  ∧ search stOne ("hello".data) =
      [{ page := 0, label := "L".data, snippet := "say hello world".data }] := by
  refine ⟨fun pages q => searchPages_pairs _ _, fun pages q => searchPages_eq_filterMap _ _,
    fun text ql pos h => pyFind_some _ _ pos h, fun text pos h1 h2 => ?_, by decide⟩
  have h60 : pos - 60 = 0 := by omega
  rw [h60, List.drop_zero]
  exact List.take_of_length_le (by omega)

/-- C9 witness: in `"say hello world"` the query `"hello"` is first found at
position 4, within the snippet window. -/
theorem claim_C9_witness :
    pyFind (lowerL ("say hello world".data)) ("hello".data) = some 4
  ∧ ("hello".data <+: (lowerL ("say hello world".data)).drop 4) :=
  ⟨by decide, (claim_C9.2.2.1 ("say hello world".data) ("hello".data) 4 (by decide)).1⟩

/-- A windowed page construction indexed by its window number has contiguous
indices starting at 0. -/
lemma windowed_pages_index (n : Nat) (f : Nat → Page) (hf : ∀ j, (f j).index = j) :
    ((List.range n).map f).map Page.index = List.range (((List.range n).map f).length) := by
  simp only [List.map_map, List.length_map, List.length_range]
  have h : (Page.index ∘ f) = fun j => j := funext fun j => hf j
  rw [h]
  exact List.map_id' _

/-- TXT units have contiguous indices starting at 0. -/
lemma loadTxtPages_index (content : List Char) :
    (loadTxtPages content).map Page.index = List.range (loadTxtPages content).length := by
  unfold loadTxtPages
  exact windowed_pages_index _ _ (fun j => rfl)

/-- One docx loop step preserves "indices so far = `range chapterIdx`". -/
lemma docxStep_index (acc : DocxAcc) (para : Paragraph)
    (h : acc.pages.map Page.index = List.range acc.chapterIdx) :
    (docxStep acc para).pages.map Page.index = List.range (docxStep acc para).chapterIdx := by
  unfold docxStep
  split
  · split
    · simpa using h
    · simp [List.range_succ, h]
  · split
    · exact h
    · simpa using h

/-- The docx paragraph fold preserves the index invariant. -/
lemma docxFold_index (paras : List Paragraph) (acc : DocxAcc)
    (h : acc.pages.map Page.index = List.range acc.chapterIdx) :
    (paras.foldl docxStep acc).pages.map Page.index =
      List.range (paras.foldl docxStep acc).chapterIdx := by
  induction paras generalizing acc with
  | nil => simpa using h
  | cons p ps ih => exact ih _ (docxStep_index acc p h)

/-- DOCX units have contiguous indices starting at 0 (both the heading path
and the 500-word fallback). -/
lemma loadDocxPages_index (paras : List Paragraph) :
    (loadDocxPages paras).map Page.index = List.range (loadDocxPages paras).length := by
  simp only [loadDocxPages]
  have hfold := docxFold_index paras docxInit (by simp [docxInit])
  have hflen : (paras.foldl docxStep docxInit).pages.length =
      (paras.foldl docxStep docxInit).chapterIdx := by
    have h := congrArg List.length hfold
    simpa using h
  by_cases hc : (paras.foldl docxStep docxInit).currentChunk.isEmpty = true
  · rw [if_pos hc]
    by_cases hp : (paras.foldl docxStep docxInit).pages.isEmpty = true
    · rw [if_pos hp]
      exact windowed_pages_index _ _ (fun j => rfl)
    · rw [if_neg hp]
      rw [hfold, hflen]
  · rw [if_neg hc, if_neg (by simp)]
    simp [hfold, hflen, List.range_succ]

/-- One epub loop step preserves the index invariant. -/
lemma epubStep_index (acc : List Page × Nat) (item : EpubItem)
    (h : acc.1.map Page.index = List.range acc.2) :
    (epubStep acc item).1.map Page.index = List.range (epubStep acc item).2 := by
  obtain ⟨isDoc, rawText, heading⟩ := item
  unfold epubStep
  cases isDoc with
  | false => simpa using h
  | true =>
    by_cases hl : 100 < (strip rawText).length
    · cases heading <;> simp [hl, List.range_succ, h]
    · cases heading <;> simp [hl, h]

/-- EPUB units have contiguous indices starting at 0. -/
lemma loadEpubPages_index (items : List EpubItem) :
    (loadEpubPages items).map Page.index = List.range (loadEpubPages items).length := by
  unfold loadEpubPages
  have hinv : ∀ acc : List Page × Nat, acc.1.map Page.index = List.range acc.2 →
      (items.foldl epubStep acc).1.map Page.index =
        List.range (items.foldl epubStep acc).2 := by
    induction items with
    | nil => exact fun acc h => h
    | cons i is ih => exact fun acc h => ih _ (epubStep_index acc i h)
  have hfold := hinv ([], 0) (by simp)
  have hlen : (items.foldl epubStep ([], 0)).1.length = (items.foldl epubStep ([], 0)).2 := by
    have h := congrArg List.length hfold
    simpa using h
  rw [hfold, hlen]

/-- PDF units from pages enumerated from `n`: indices strictly increase and
stay at or above `n`. -/
lemma pdf_enumFrom_pairwise (raws : List (List Char)) :
    ∀ n, List.Pairwise (fun a b => a.index < b.index)
        ((List.enumFrom n raws).filterMap pdfItem)
      ∧ ∀ p ∈ (List.enumFrom n raws).filterMap pdfItem, n ≤ p.index := by
  induction raws with
  | nil => intro n; simp
  | cons r rs ih =>
    intro n
    simp only [List.enumFrom_cons, List.filterMap_cons]
    obtain ⟨hp, hb⟩ := ih (n + 1)
    cases hi : pdfItem (n, r) with
    | none => exact ⟨hp, fun p hp1 => Nat.le_of_succ_le (hb p hp1)⟩
    | some pg =>
      have hidx : pg.index = n := by
        simp only [pdfItem] at hi
        split at hi
        · exact Option.noConfusion hi
        · obtain rfl := Option.some.inj hi
          rfl
      refine ⟨List.pairwise_cons.mpr ⟨fun q hq => ?_, hp⟩, fun p hp1 => ?_⟩
      · have hgt := hb q hq
        omega
      · rcases List.mem_cons.mp hp1 with rfl | hmem
        · omega
        · have hgt := hb p hmem
          omega

/-- When no page is skipped, PDF indices from `n` are `range' n raws.length`. -/
lemma pdf_enumFrom_map (raws : List (List Char)) :
    ∀ n, (∀ r ∈ raws, (strip r).isEmpty = false) →
      ((List.enumFrom n raws).filterMap pdfItem).map Page.index =
        List.range' n raws.length := by
  induction raws with
  | nil => intro n _; simp
  | cons r rs ih =>
    intro n hne
    simp only [List.enumFrom_cons, List.filterMap_cons]
    have hr : (strip r).isEmpty = false := hne r (by simp)
    have hi : pdfItem (n, r) =
        some { index := n, text := strip r, label := "Page ".data ++ natStr (n + 1) } := by
      simp only [pdfItem]
      rw [if_neg (by simp [hr])]
    rw [hi]
    simp only [List.map_cons, List.length_cons, List.range'_succ]
    rw [ih (n + 1) (fun x hx => hne x (by simp [hx]))]

/-- C3 counterexample: a successfully loaded PDF whose first page has empty
extracted text stores one unit, and that unit (position 0) has index 1, not
0 — the indices are not contiguous from 0. -/
theorem claim_C3_counterexample :
    (load stEmpty ("doc.pdf") envPdfGap).1 = true
  ∧ ((load stEmpty ("doc.pdf") envPdfGap).2.pages).map Page.index = [1]
  ∧ ¬ ((load stEmpty ("doc.pdf") envPdfGap).2.pages).map Page.index =
      List.range ((load stEmpty ("doc.pdf") envPdfGap).2.pages).length := by
  refine ⟨rfl, rfl, by decide⟩

/-- C3 amended: units built by the TXT, DOCX and EPUB paths always carry
contiguous `index` fields starting at 0; units built by the PDF path carry
strictly increasing `index` fields, and whenever no page is skipped for empty
text those indices are contiguous starting at 0. -/
theorem claim_C3 :
    (∀ content : List Char,
      (loadTxtPages content).map Page.index = List.range (loadTxtPages content).length)
  ∧ (∀ paras : List Paragraph,
      (loadDocxPages paras).map Page.index = List.range (loadDocxPages paras).length)
  ∧ (∀ items : List EpubItem,
      (loadEpubPages items).map Page.index = List.range (loadEpubPages items).length)
  ∧ (∀ raws : List (List Char),
      List.Pairwise (fun a b => a.index < b.index) (loadPdfPages raws))
  ∧ (∀ raws : List (List Char), (∀ r ∈ raws, (strip r).isEmpty = false) →
      (loadPdfPages raws).map Page.index = List.range (loadPdfPages raws).length) := by
  refine ⟨loadTxtPages_index, loadDocxPages_index, loadEpubPages_index,
    fun raws => (pdf_enumFrom_pairwise raws 0).1, fun raws hne => ?_⟩
  have hmap := pdf_enumFrom_map raws 0 hne
  have hlen : (loadPdfPages raws).length = raws.length := by
    have h := congrArg List.length hmap
    simpa [loadPdfPages, List.enum] using h
  rw [loadPdfPages, List.enum] at *
  rw [hmap, hlen, List.range_eq_range']

/-- C3 witness: a two-page PDF with no empty page yields indices `[0, 1]`. -/
theorem claim_C3_witness :
    (∀ r ∈ (["ab".data, "cd".data] : List (List Char)), (strip r).isEmpty = false)
  ∧ (loadPdfPages (["ab".data, "cd".data] : List (List Char))).map Page.index =
      List.range (loadPdfPages (["ab".data, "cd".data] : List (List Char))).length :=
  ⟨by decide, claim_C3.2.2.2.2 (["ab".data, "cd".data] : List (List Char)) (by decide)⟩

end EchoVision
